import Mathlib

/- Verification of the presence and live-state synchronization engine of the
agnos-web repository: the wire codec, the dashboard reconciler with its
removal scheduler, the outbound debounce lane, the presence state machine of
the patient page, and the channel connection error handling. -/

set_option linter.unusedVariables false
set_option linter.unnecessarySeqFocus false

/-! JSON values, as produced by the platform decoder. -/

inductive Json where
  | null : Json
  | bool : Bool → Json
  | num : Int → Json
  | str : String → Json
  | arr : List Json → Json
  | obj : List (String × Json) → Json

/- A JS value in a field position: either a JSON value or the undefined value
resulting from a missing property. -/
inductive JsVal where
  | undefined : JsVal
  | val : Json → JsVal

def truthy : JsVal → Bool
  | .undefined => false
  | .val .null => false
  | .val (.bool b) => b
  | .val (.num n) => n != 0
  | .val (.str s) => s != ""
  | .val (.arr _) => true
  | .val (.obj _) => true

/- Strict string equality test of the triple-equals operator against a string
literal: true only for an identical string value. -/
def jsStrEq (v : JsVal) (s : String) : Bool :=
  match v with
  | .val (.str t) => t == s
  | _ => false

/- The logical-or fallback idiom: the left value if truthy, else the default. -/
def jsOr (v d : JsVal) : JsVal := if truthy v then v else d

/- Numeric reading of a value used in arithmetic positions. -/
def jsNum : JsVal → Int
  | .val (.num n) => n
  | _ => 0

def isArrayV : JsVal → Bool
  | .val (.arr _) => true
  | _ => false

/- String conversion used when a value becomes an object key. -/
mutual
def jsonStr : Json → String
  | .null => "null"
  | .bool b => if b then "true" else "false"
  | .num n => toString n
  | .str s => s
  | .arr xs => jsonStrList xs
  | .obj _ => "[object Object]"

def jsonStrList : List Json → String
  | [] => ""
  | [x] => jsonStr x
  | x :: rest => jsonStr x ++ "," ++ jsonStrList rest
end

def jsKey : JsVal → String
  | .undefined => "undefined"
  | .val j => jsonStr j

/- Property read on a JSON value known not to be null: missing keys give
undefined, primitives have no own properties. -/
def getFieldT : Json → String → JsVal
  | .obj fs, k =>
      match List.lookup k fs with
      | some v => .val v
      | none => .undefined
  | _, _ => .undefined

/- Property read on a field value: reading a property of null or undefined
throws, which we surface as none. -/
def jsGetV : JsVal → String → Option JsVal
  | .undefined, _ => none
  | .val .null, _ => none
  | .val j, k => some (getFieldT j k)

/- Optional-chaining property read: null and undefined give undefined. -/
def optChain (v : JsVal) (k : String) : JsVal :=
  match jsGetV v k with
  | some x => x
  | none => .undefined

/-! Assoc-list operations modelling a plain JS object keyed by strings:
update in place for an existing key, append for a new one, and key removal. -/

def setEntry {β : Type} : List (String × β) → String → β → List (String × β)
  | [], k, v => [(k, v)]
  | (k0, v0) :: rest, k, v =>
      if k0 == k then (k0, v) :: rest else (k0, v0) :: setEntry rest k v

def delEntry {β : Type} (m : List (String × β)) (k : String) : List (String × β) :=
  m.filter (fun p => p.1 != k)

/-! The wire codec: a fuel-indexed recursive-descent JSON reader standing for
the platform JSON.parse at the decode boundary. Decoding never raises; a
malformed frame yields none. -/

def quoteChar : Char := Char.ofNat 34
def backslashChar : Char := Char.ofNat 92
def slashChar : Char := Char.ofNat 47
def lbraceChar : Char := Char.ofNat 123
def rbraceChar : Char := Char.ofNat 125
def lbrackChar : Char := Char.ofNat 91
def rbrackChar : Char := Char.ofNat 93
def commaChar : Char := Char.ofNat 44
def colonChar : Char := Char.ofNat 58
def minusChar : Char := Char.ofNat 45
def dotChar : Char := Char.ofNat 46

def isWsChar (c : Char) : Bool :=
  c == ' ' || c == Char.ofNat 9 || c == Char.ofNat 10 || c == Char.ofNat 13

def skipWs : List Char → List Char
  | [] => []
  | c :: cs => if isWsChar c then skipWs cs else c :: cs

def stripKeyword : List Char → List Char → Option (List Char)
  | [], cs => some cs
  | _ :: _, [] => none
  | p :: ps, c :: cs => if c == p then stripKeyword ps cs else none

def hexDigitVal (c : Char) : Option Nat :=
  if c.isDigit then some (c.toNat - 48)
  else if 'a' ≤ c && c ≤ 'f' then some (c.toNat - 87)
  else if 'A' ≤ c && c ≤ 'F' then some (c.toNat - 55)
  else none

def parseStrAux (acc : List Char) : List Char → Option (String × List Char)
  | [] => none
  | c :: cs =>
      if c == quoteChar then some (String.mk acc.reverse, cs)
      else if c == backslashChar then
        match cs with
        | [] => none
        | e :: cs2 =>
            if e == quoteChar then parseStrAux (quoteChar :: acc) cs2
            else if e == backslashChar then parseStrAux (backslashChar :: acc) cs2
            else if e == slashChar then parseStrAux (slashChar :: acc) cs2
            else if e == 'b' then parseStrAux (Char.ofNat 8 :: acc) cs2
            else if e == 'f' then parseStrAux (Char.ofNat 12 :: acc) cs2
            else if e == 'n' then parseStrAux (Char.ofNat 10 :: acc) cs2
            else if e == 'r' then parseStrAux (Char.ofNat 13 :: acc) cs2
            else if e == 't' then parseStrAux (Char.ofNat 9 :: acc) cs2
            else if e == 'u' then
              match cs2 with
              | h1 :: h2 :: h3 :: h4 :: cs3 =>
                  match hexDigitVal h1, hexDigitVal h2, hexDigitVal h3, hexDigitVal h4 with
                  | some a, some b, some c3, some d =>
                      parseStrAux (Char.ofNat (((a * 16 + b) * 16 + c3) * 16 + d) :: acc) cs3
                  | _, _, _, _ => none
              | _ => none
            else none
      else if c.toNat < 32 then none
      else parseStrAux (c :: acc) cs

def digitsToNat (ds : List Char) : Nat :=
  ds.foldl (fun n c => n * 10 + (c.toNat - 48)) 0

def takeDigits : List Char → (List Char × List Char)
  | [] => ([], [])
  | c :: cs =>
      if c.isDigit then
        let (d, r) := takeDigits cs
        (c :: d, r)
      else ([], c :: cs)

/- Integer JSON numbers; a fractional or exponent part is not accepted by this
model of the codec since the protocol carries millisecond integers. -/
def parseIntChars (cs : List Char) : Option (Json × List Char) :=
  let (neg, cs1) :=
    match cs with
    | c :: rest => if c == minusChar then (true, rest) else (false, cs)
    | [] => (false, ([] : List Char))
  match takeDigits cs1 with
  | ([], _) => none
  | (ds, rest) =>
      let bad :=
        match rest with
        | c :: _ => c == dotChar || c == 'e' || c == 'E'
        | [] => false
      if bad then none
      else
        let n : Int := Int.ofNat (digitsToNat ds)
        some (.num (if neg then -n else n), rest)

mutual
def parseValue : Nat → List Char → Option (Json × List Char)
  | 0, _ => none
  | fuel + 1, cs0 =>
      match skipWs cs0 with
      | [] => none
      | c :: rest =>
          if c == quoteChar then
            match parseStrAux [] rest with
            | some (s, rest2) => some (.str s, rest2)
            | none => none
          else if c == lbraceChar then
            match skipWs rest with
            | d :: rest2 =>
                if d == rbraceChar then some (.obj [], rest2)
                else
                  match parseMembers fuel (d :: rest2) [] with
                  | some (fs, rest3) => some (.obj fs, rest3)
                  | none => none
            | [] => none
          else if c == lbrackChar then
            match skipWs rest with
            | d :: rest2 =>
                if d == rbrackChar then some (.arr [], rest2)
                else
                  match parseElems fuel (d :: rest2) [] with
                  | some (xs, rest3) => some (.arr xs, rest3)
                  | none => none
            | [] => none
          else if c == 'n' then
            match stripKeyword ['u', 'l', 'l'] rest with
            | some rest2 => some (.null, rest2)
            | none => none
          else if c == 't' then
            match stripKeyword ['r', 'u', 'e'] rest with
            | some rest2 => some (.bool true, rest2)
            | none => none
          else if c == 'f' then
            match stripKeyword ['a', 'l', 's', 'e'] rest with
            | some rest2 => some (.bool false, rest2)
            | none => none
          else if c == minusChar || c.isDigit then parseIntChars (c :: rest)
          else none

def parseMembers : Nat → List Char → List (String × Json) →
    Option (List (String × Json) × List Char)
  | 0, _, _ => none
  | fuel + 1, cs, acc =>
      match skipWs cs with
      | [] => none
      | c :: rest =>
          if c == quoteChar then
            match parseStrAux [] rest with
            | some (k, rest2) =>
                match skipWs rest2 with
                | [] => none
                | d :: rest3 =>
                    if d == colonChar then
                      match parseValue fuel rest3 with
                      | some (v, rest4) =>
                          let acc2 := setEntry acc k v
                          match skipWs rest4 with
                          | [] => none
                          | e :: rest5 =>
                              if e == commaChar then parseMembers fuel rest5 acc2
                              else if e == rbraceChar then some (acc2, rest5)
                              else none
                      | none => none
                    else none
            | none => none
          else none

def parseElems : Nat → List Char → List Json → Option (List Json × List Char)
  | 0, _, _ => none
  | fuel + 1, cs, acc =>
      match parseValue fuel cs with
      | some (v, rest) =>
          match skipWs rest with
          | [] => none
          | e :: rest2 =>
              if e == commaChar then parseElems fuel rest2 (acc ++ [v])
              else if e == rbrackChar then some (acc ++ [v], rest2)
              else none
      | none => none
end

def parseJson (s : String) : Option Json :=
  match parseValue (2 * s.length + 4) s.data with
  | some (j, rest) => if (skipWs rest).isEmpty then some j else none
  | none => none

/-! Dashboard reconciler of the staff dashboard hook with the removal
scheduler: participant map, removal timer bookkeeping, and the message
handler folding the dashboard event stream. Fields that the handler stores
from message data are kept as raw field values. -/

structure PatientInfo where
  summary : JsVal
  ts : JsVal
  isLiveConnected : JsVal
  status : JsVal
  lastActivity : JsVal

/- An armed, not yet cancelled one-shot removal timer. -/
structure Timer where
  tid : Nat
  clientId : String
  fireAt : Int
deriving DecidableEq

structure DashState where
  patients : List (String × PatientInfo)
  pending : List Timer
  timerRef : List (String × Nat)
  nextTid : Nat

def initialDashState : DashState :=
  { patients := [], pending := [], timerRef := [], nextTid := 1 }

def optSummary : Option PatientInfo → JsVal
  | some pi => pi.summary
  | none => .undefined

def optLive : Option PatientInfo → JsVal
  | some pi => pi.isLiveConnected
  | none => .undefined

def optStatus : Option PatientInfo → JsVal
  | some pi => pi.status
  | none => .undefined

def optLastActivity : Option PatientInfo → JsVal
  | some pi => pi.lastActivity
  | none => .undefined

/- Clearing the tracked removal timer for a client and dropping its handle,
as done on fresh activity: a pending timeout with the stored id is cancelled
and the handle entry is deleted. -/
def clearRemovalTimer (clientId : String) (st : DashState) : DashState :=
  match List.lookup clientId st.timerRef with
  | some tid =>
      { st with
        pending := st.pending.filter (fun tm => tm.tid != tid),
        timerRef := delEntry st.timerRef clientId }
  | none => st

/- Schedule removal based on an event timestamp: clear any existing timer,
then either delete immediately when the grace window has already elapsed or
arm a one-shot timer for the remaining time. -/
def scheduleRemoval (clientId : String) (eventTimestamp : Int) (now : Int)
    (reason : String) (st : DashState) : DashState :=
  let elapsed := now - eventTimestamp
  let remaining := max 0 (10000 - elapsed)
  let st1 :=
    match List.lookup clientId st.timerRef with
    | some tid => { st with pending := st.pending.filter (fun tm => tm.tid != tid) }
    | none => st
  if remaining = 0 then
    { st1 with
      patients := delEntry st1.patients clientId,
      timerRef := delEntry st1.timerRef clientId }
  else
    { st1 with
      pending := st1.pending ++ [⟨st1.nextTid, clientId, now + remaining⟩],
      timerRef := setEntry st1.timerRef clientId st1.nextTid,
      nextTid := st1.nextTid + 1 }

/- The callback of an armed removal timer: delete the participant entry and
drop the timer and its handle. -/
def fireRemovalTimer (tm : Timer) (st : DashState) : DashState :=
  { st with
    patients := delEntry st.patients tm.clientId,
    pending := st.pending.filter (fun x => x.tid != tm.tid),
    timerRef := delEntry st.timerRef tm.clientId }

/- The loop over the initial-state payload building the fresh participant map
and scheduling removals for already submitted or disconnected entries. A
property read on a null element throws: the first component none records
that, with the timer effects made so far kept. -/
def initLoop (now : Int) : List Json → List (String × PatientInfo) → DashState →
    (Option (List (String × PatientInfo)) × DashState)
  | [], acc, st => (some acc, st)
  | p :: rest, acc, st =>
      match p with
      | .null => (none, st)
      | _ =>
          let cidV := getFieldT p "clientId"
          let key := jsKey cidV
          let sumV := getFieldT p "summary"
          let laV := getFieldT p "lastActivity"
          let stV := getFieldT p "status"
          let info : PatientInfo :=
            { summary := jsOr sumV (JsVal.val (Json.obj [])),
              ts := jsOr laV (JsVal.val (Json.num now)),
              isLiveConnected := JsVal.val (Json.bool false),
              status := jsOr stV (JsVal.val (Json.str "online")),
              lastActivity := jsOr laV (JsVal.val (Json.num now)) }
          let acc2 := setEntry acc key info
          let subV := optChain sumV "submitted"
          let subAtV := optChain sumV "submittedAt"
          let dcAtV := getFieldT p "disconnectedAt"
          let st2 :=
            if truthy subV && truthy subAtV then
              scheduleRemoval key (jsNum subAtV) now "submitted" st
            else if jsStrEq stV "disconnected" && truthy dcAtV then
              scheduleRemoval key (jsNum dcAtV) now "disconnected" st
            else st
          initLoop now rest acc2 st2

def validStatusV (v : JsVal) : Bool :=
  jsStrEq v "online" || jsStrEq v "updating" || jsStrEq v "idle" ||
    jsStrEq v "disconnected"

/- The dashboard message handler of the staff dashboard hook with removal
scheduling, applied to an already decoded frame. A thrown property read is
caught by the surrounding handler, keeping the state reached so far. -/
def handleDashboardMsg (msg : Json) (now : Int) (st : DashState) : DashState :=
  match msg with
  | .null => st
  | _ =>
      let typeV := getFieldT msg "type"
      let cidV := getFieldT msg "clientId"
      let stateV := getFieldT msg "state"
      let payloadV := getFieldT msg "payload"
      let tsV := getFieldT msg "timestamp"
      if jsStrEq typeV "initialState" && isArrayV payloadV then
        match payloadV with
        | .val (.arr xs) =>
            match initLoop now xs [] st with
            | (some acc, st2) => { st2 with patients := acc }
            | (none, st2) => st2
        | _ => st
      else if jsStrEq typeV "summary" && truthy cidV then
        match jsGetV payloadV "submitted" with
        | none => st
        | some subV =>
            let key := jsKey cidV
            let st1 := if !truthy subV then clearRemovalTimer key st else st
            let prev := List.lookup key st1.patients
            let info : PatientInfo :=
              { summary := payloadV,
                ts := jsOr tsV (JsVal.val (Json.num now)),
                isLiveConnected := optLive prev,
                status := jsOr (optStatus prev) (JsVal.val (Json.str "online")),
                lastActivity := JsVal.val (Json.num now) }
            let st2 := { st1 with patients := setEntry st1.patients key info }
            let subAtV := optChain payloadV "submittedAt"
            if truthy subV && truthy subAtV then
              scheduleRemoval key (jsNum subAtV) now "submitted" st2
            else st2
      else if jsStrEq typeV "status" && truthy cidV && truthy stateV then
        if validStatusV stateV then
          let key := jsKey cidV
          let prev := List.lookup key st.patients
          { st with
            patients := setEntry st.patients key
              { summary := jsOr (optSummary prev) (JsVal.val (Json.obj [])),
                ts := jsOr tsV (JsVal.val (Json.num now)),
                isLiveConnected := optLive prev,
                status := stateV,
                lastActivity := JsVal.val (Json.num now) } }
        else st
      else if jsStrEq typeV "patientConnected" && truthy cidV then
        let key := jsKey cidV
        let st1 := clearRemovalTimer key st
        let prev := List.lookup key st1.patients
        { st1 with
          patients := setEntry st1.patients key
            { summary := jsOr (optSummary prev) (JsVal.val (Json.obj [])),
              ts := jsOr tsV (JsVal.val (Json.num now)),
              isLiveConnected := optLive prev,
              status := JsVal.val (Json.str "online"),
              lastActivity := JsVal.val (Json.num now) } }
      else if jsStrEq typeV "patientDisconnected" && truthy cidV then
        let key := jsKey cidV
        let disconnectedAt := jsOr tsV (JsVal.val (Json.num now))
        let prev := List.lookup key st.patients
        let info : PatientInfo :=
          { summary := optSummary prev,
            ts := disconnectedAt,
            isLiveConnected := optLive prev,
            status := JsVal.val (Json.str "disconnected"),
            lastActivity := jsOr (optLastActivity prev) (JsVal.val (Json.num now)) }
        let st1 := { st with patients := setEntry st.patients key info }
        scheduleRemoval key (jsNum disconnectedAt) now "disconnected" st1
      else st

/- The full handler at the decode boundary: a frame that fails to decode is
dropped and the state is unchanged. -/
def handleDashboardMessage (data : String) (now : Int) (st : DashState) : DashState :=
  match parseJson data with
  | some j => handleDashboardMsg j now st
  | none => st

/-! The second staff dashboard handler variant, from the use-web-socket hook:
same reconciliation fold without local removal timers, and with the
patientRemoved eviction branch. Its state is the participant map alone. -/

def initLoopV2 (now : Int) : List Json → List (String × PatientInfo) →
    Option (List (String × PatientInfo))
  | [], acc => some acc
  | p :: rest, acc =>
      match p with
      | .null => none
      | _ =>
          let cidV := getFieldT p "clientId"
          let key := jsKey cidV
          let sumV := getFieldT p "summary"
          let laV := getFieldT p "lastActivity"
          let stV := getFieldT p "status"
          let info : PatientInfo :=
            { summary := jsOr sumV (JsVal.val (Json.obj [])),
              ts := jsOr laV (JsVal.val (Json.num now)),
              isLiveConnected := JsVal.val (Json.bool false),
              status := jsOr stV (JsVal.val (Json.str "online")),
              lastActivity := jsOr laV (JsVal.val (Json.num now)) }
          initLoopV2 now rest (setEntry acc key info)

def handleDashboardMsgV2 (msg : Json) (now : Int)
    (patients : List (String × PatientInfo)) : List (String × PatientInfo) :=
  match msg with
  | .null => patients
  | _ =>
      let typeV := getFieldT msg "type"
      let cidV := getFieldT msg "clientId"
      let stateV := getFieldT msg "state"
      let payloadV := getFieldT msg "payload"
      let tsV := getFieldT msg "timestamp"
      if jsStrEq typeV "initialState" && isArrayV payloadV then
        match payloadV with
        | .val (.arr xs) =>
            match initLoopV2 now xs [] with
            | some acc => acc
            | none => patients
        | _ => patients
      else if jsStrEq typeV "summary" && truthy cidV then
        let key := jsKey cidV
        let prev := List.lookup key patients
        setEntry patients key
          { summary := payloadV,
            ts := jsOr tsV (JsVal.val (Json.num now)),
            isLiveConnected := optLive prev,
            status := jsOr (optStatus prev) (JsVal.val (Json.str "online")),
            lastActivity := JsVal.val (Json.num now) }
      else if jsStrEq typeV "status" && truthy cidV && truthy stateV then
        if validStatusV stateV then
          let key := jsKey cidV
          let prev := List.lookup key patients
          setEntry patients key
            { summary := jsOr (optSummary prev) (JsVal.val (Json.obj [])),
              ts := jsOr tsV (JsVal.val (Json.num now)),
              isLiveConnected := optLive prev,
              status := stateV,
              lastActivity := JsVal.val (Json.num now) }
        else patients
      else if jsStrEq typeV "patientConnected" && truthy cidV then
        let key := jsKey cidV
        let prev := List.lookup key patients
        setEntry patients key
          { summary := jsOr (optSummary prev) (JsVal.val (Json.obj [])),
            ts := jsOr tsV (JsVal.val (Json.num now)),
            isLiveConnected := optLive prev,
            status := JsVal.val (Json.str "online"),
            lastActivity := JsVal.val (Json.num now) }
      else if jsStrEq typeV "patientDisconnected" && truthy cidV then
        let key := jsKey cidV
        let prev := List.lookup key patients
        setEntry patients key
          { summary := optSummary prev,
            ts := jsOr tsV (JsVal.val (Json.num now)),
            isLiveConnected := optLive prev,
            status := JsVal.val (Json.str "disconnected"),
            lastActivity := jsOr (optLastActivity prev) (JsVal.val (Json.num now)) }
      else if jsStrEq typeV "patientRemoved" && truthy cidV then
        delEntry patients (jsKey cidV)
      else patients

/-! The debounced summary lane of the dashboard hook: a single tracked
timeout handle, re-armed on every enqueue, whose callback transmits the
captured message on the underlying connection when it is open. Armed and not
yet cancelled timeouts are listed explicitly so that a forgotten cancel
would still fire. -/

structure DebState where
  pendingT : List (Nat × Int × String)
  debounceTimer : Option Nat
  nextT : Nat
  sent : List String
  wsOpen : Bool

def initialDebState : DebState :=
  { pendingT := [], debounceTimer := none, nextT := 1, sent := [], wsOpen := true }

def sendImmediateD (message : String) (st : DebState) : DebState :=
  if st.wsOpen then { st with sent := st.sent ++ [message] } else st

/- Enqueue on the debounced lane at wall time t: cancel the tracked pending
timeout, then arm a fresh one for t plus the 600 ms debounce. -/
def sendDebounced (message : String) (t : Int) (st : DebState) : DebState :=
  let st1 :=
    match st.debounceTimer with
    | some tid => { st with pendingT := st.pendingT.filter (fun x => x.1 != tid) }
    | none => st
  { st1 with
    pendingT := st1.pendingT ++ [(st1.nextT, t + 600, message)],
    debounceTimer := some st1.nextT,
    nextT := st1.nextT + 1 }

/- The callback of a due debounce timeout: transmit and null the handle. -/
def fireDebounceTimer (x : Nat × Int × String) (st : DebState) : DebState :=
  let st1 := sendImmediateD x.2.2 st
  { st1 with
    pendingT := st1.pendingT.filter (fun y => y.1 != x.1),
    debounceTimer := none }

/- Fire every armed timeout due by wall time t, oldest first. -/
def fireDueDebounce (t : Int) : Nat → DebState → DebState
  | 0, st => st
  | fuel + 1, st =>
      match st.pendingT.find? (fun x => decide (x.2.1 ≤ t)) with
      | some x => fireDueDebounce t fuel (fireDebounceTimer x st)
      | none => st

/- One enqueue at wall time ev.1: any due timer fires first, then the lane
re-arms for the new message. -/
def debounceStep (s : DebState) (ev : Int × String) : DebState :=
  sendDebounced ev.2 ev.1 (fireDueDebounce ev.1 s.pendingT.length s)

/- A burst of enqueues in wall-time order, timers firing whenever due. -/
def runDebounceBurst (evs : List (Int × String)) (st : DebState) : DebState :=
  evs.foldl debounceStep st

/-! The presence state machine of the patient page: current status, the two
tracked timer handles, armed timeouts, and the list of statuses emitted via
the status-update sender. -/

structure PresenceState where
  patientId : String
  currentStatus : String
  activityTimer : Option Nat
  idleTimer : Option Nat
  pendingP : List (Nat × Int × String)
  emitted : List String
  nextP : Nat

/- Sending a status update: a no-op while the patient id is empty, else the
status is broadcast and recorded as current. -/
def sendStatusUpdate (status : String) (st : PresenceState) : PresenceState :=
  if st.patientId == "" then st
  else { st with emitted := st.emitted ++ [status], currentStatus := status }

def clearTimerP (r : Option Nat) (st : PresenceState) : PresenceState :=
  match r with
  | some tid => { st with pendingP := st.pendingP.filter (fun x => x.1 != tid) }
  | none => st

/- Keystroke: cancel both timers, emit updating unless already updating, then
arm the 2 s return-to-online and the 30 s go-idle timeouts. -/
def handleKeyboardInput (t : Int) (st : PresenceState) : PresenceState :=
  let st1 := clearTimerP st.activityTimer st
  let st2 := clearTimerP st1.idleTimer st1
  let st3 :=
    if st2.currentStatus != "updating" then sendStatusUpdate "updating" st2 else st2
  let st4 :=
    { st3 with
      pendingP := st3.pendingP ++ [(st3.nextP, t + 2000, "online")],
      activityTimer := some st3.nextP,
      nextP := st3.nextP + 1 }
  { st4 with
    pendingP := st4.pendingP ++ [(st4.nextP, t + 30000, "idle")],
    idleTimer := some st4.nextP,
    nextP := st4.nextP + 1 }

/- Focus: cancel the idle timer, emit online only out of idle, re-arm the
30 s go-idle timeout. -/
def handleInputFocus (t : Int) (st : PresenceState) : PresenceState :=
  let st1 := clearTimerP st.idleTimer st
  let st2 :=
    if st1.currentStatus == "idle" then sendStatusUpdate "online" st1 else st1
  { st2 with
    pendingP := st2.pendingP ++ [(st2.nextP, t + 30000, "idle")],
    idleTimer := some st2.nextP,
    nextP := st2.nextP + 1 }

inductive PresenceEvent where
  | keystroke : Int → PresenceEvent
  | focus : Int → PresenceEvent

def presenceStep (st : PresenceState) : PresenceEvent → PresenceState
  | .keystroke t => handleKeyboardInput t st
  | .focus t => handleInputFocus t st

def runPresence (evs : List PresenceEvent) (st : PresenceState) : PresenceState :=
  evs.foldl presenceStep st

/-! The channel connection around one transport: ready state (0 connecting,
1 open, 2 closing, 3 closed), the count of error events forwarded to the
owning callback, and the unmounting flag of the second hook variant. -/

structure ConnState where
  readyState : Nat
  errorsForwarded : Nat
  isUnmounting : Bool
deriving DecidableEq

/- The error handler of the web-socket hook variant: always forwards. -/
def onTransportError (st : ConnState) : ConnState :=
  { st with errorsForwarded := st.errorsForwarded + 1 }

/- Initiating a graceful close on the transport. -/
def closeConn (st : ConnState) : ConnState :=
  if st.readyState ≤ 1 then { st with readyState := 2 } else st

/- The teardown of the use-web-socket hook variant: set the unmounting flag,
then close the transport if it is connecting or open. -/
def cleanupV2 (st : ConnState) : ConnState :=
  let st1 := { st with isUnmounting := true }
  if st1.readyState = 1 || st1.readyState = 0 then { st1 with readyState := 2 }
  else st1

/- The error handler of the use-web-socket hook variant: suppressed while
unmounting or while the transport is closing or closed. -/
def onTransportErrorV2 (st : ConnState) : ConnState :=
  if st.isUnmounting then st
  else if st.readyState ≠ 2 && st.readyState ≠ 3 then
    { st with errorsForwarded := st.errorsForwarded + 1 }
  else st

/-! Message envelopes as the producers build them, for stating properties. -/

def statusMsg (c state : String) (ts : Int) : Json :=
  .obj [("type", .str "status"), ("clientId", .str c), ("state", .str state),
        ("timestamp", .num ts)]

def summaryMsg (c : String) (payload : Json) (ts : Int) : Json :=
  .obj [("type", .str "summary"), ("clientId", .str c), ("payload", payload),
        ("timestamp", .num ts)]

def connectedMsg (c : String) (ts : Int) : Json :=
  .obj [("type", .str "patientConnected"), ("clientId", .str c),
        ("timestamp", .num ts)]

def disconnectMsg (c : String) (ts : Int) : Json :=
  .obj [("type", .str "patientDisconnected"), ("clientId", .str c),
        ("timestamp", .num ts)]

def removedMsg (c : String) (ts : Int) : Json :=
  .obj [("type", .str "patientRemoved"), ("clientId", .str c),
        ("timestamp", .num ts)]

def initialStateMsg (xs : List Json) (ts : Int) : Json :=
  .obj [("type", .str "initialState"), ("clientId", .str "server"),
        ("payload", .arr xs), ("timestamp", .num ts)]

/-! Invariants of the removal timer bookkeeping: every armed timer is the
one tracked for its client, timer ids are fresh below the counter, and no
two armed timers share an id. -/

def timerInv (st : DashState) : Prop :=
  (∀ tm ∈ st.pending, List.lookup tm.clientId st.timerRef = some tm.tid) ∧
  (∀ tm ∈ st.pending, tm.tid < st.nextTid) ∧
  st.pending.Pairwise (fun a b => a.tid ≠ b.tid)

/- At most one armed removal timer per client. -/
def atMostOnePerClient (st : DashState) : Prop :=
  st.pending.Pairwise (fun a b => a.clientId ≠ b.clientId)

/-! Invariants of the presence machine timers and the emission trace. -/

def presenceTimerInv (st : PresenceState) : Prop :=
  (∀ x ∈ st.pendingP,
      (st.activityTimer = some x.1 ∨ st.idleTimer = some x.1) ∧ x.1 < st.nextP) ∧
  st.pendingP.Pairwise (fun a b => a.1 ≠ b.1)

def emitInv (st : PresenceState) : Prop :=
  st.emitted ≠ [] → st.emitted.getLast? = some st.currentStatus

/- The last event of a nonempty burst. -/
def lastEv (e : Int × String) : List (Int × String) → Int × String
  | [] => e
  | e2 :: rest => lastEv e2 rest

/- The entry written by the summary branch, for stating its effects. -/
def mkSummaryInfo (prev : Option PatientInfo) (payload tsv : JsVal) (now : Int) :
    PatientInfo :=
  { summary := payload,
    ts := jsOr tsv (JsVal.val (Json.num now)),
    isLiveConnected := optLive prev,
    status := jsOr (optStatus prev) (JsVal.val (Json.str "online")),
    lastActivity := JsVal.val (Json.num now) }

/- The entry written by the patientConnected branch. -/
def mkConnectedInfo (prev : Option PatientInfo) (tsv : JsVal) (now : Int) :
    PatientInfo :=
  { summary := jsOr (optSummary prev) (JsVal.val (Json.obj [])),
    ts := jsOr tsv (JsVal.val (Json.num now)),
    isLiveConnected := optLive prev,
    status := JsVal.val (Json.str "online"),
    lastActivity := JsVal.val (Json.num now) }

/- The entry written by the patientDisconnected branch, for stating its
frame conditions. -/
def mkDisconnectedInfo (prev : Option PatientInfo) (t now : Int) : PatientInfo :=
  { summary := optSummary prev,
    ts := JsVal.val (Json.num t),
    isLiveConnected := optLive prev,
    status := JsVal.val (Json.str "disconnected"),
    lastActivity := jsOr (optLastActivity prev) (JsVal.val (Json.num now)) }

/-! Basic lemmas about the object operations. -/

theorem lookup_setEntry_self {β : Type} (m : List (String × β)) (k : String) (v : β) :
    List.lookup k (setEntry m k v) = some v := by
  induction m with
  | nil => simp [setEntry, List.lookup]
  | cons p rest ih =>
      obtain ⟨k0, v0⟩ := p
      by_cases h : k0 = k
      · subst h
        simp [setEntry, List.lookup]
      · simp only [setEntry, beq_iff_eq, h, if_false, List.lookup]
        have h2 : (k == k0) = false := by
          simp [beq_iff_eq]
          exact fun he => h he.symm
        simp [h2, ih]

theorem lookup_setEntry_ne {β : Type} (m : List (String × β)) (k k2 : String) (v : β)
    (h : k ≠ k2) : List.lookup k2 (setEntry m k v) = List.lookup k2 m := by
  induction m with
  | nil =>
      have h2 : (k2 == k) = false := by
        simp [beq_iff_eq]
        exact fun he => h he.symm
      simp [setEntry, List.lookup, h2]
  | cons p rest ih =>
      obtain ⟨k0, v0⟩ := p
      by_cases h0 : k0 = k
      · subst h0
        have h2 : (k2 == k0) = false := by
          simp [beq_iff_eq]
          exact fun he => h he.symm
        simp [setEntry, List.lookup, h2]
      · simp only [setEntry, beq_iff_eq, h0, if_false, List.lookup]
        by_cases h3 : k2 = k0
        · subst h3
          simp [List.lookup]
        · have h4 : (k2 == k0) = false := by simp [beq_iff_eq, h3]
          simp [h4, ih]

theorem lookup_delEntry_self {β : Type} (m : List (String × β)) (k : String) :
    List.lookup k (delEntry m k) = none := by
  induction m with
  | nil => simp [delEntry, List.lookup]
  | cons p rest ih =>
      obtain ⟨k0, v0⟩ := p
      by_cases h : k0 = k
      · subst h
        simpa [delEntry, List.filter] using ih
      · have h2 : (k0 != k) = true := by simp [bne_iff_ne, h]
        have h3 : (k == k0) = false := by
          simp [beq_iff_eq]
          exact fun he => h he.symm
        simp only [delEntry, List.filter] at ih ⊢
        simp [h2, List.lookup, h3, ih]

theorem lookup_delEntry_ne {β : Type} (m : List (String × β)) (k k2 : String)
    (h : k ≠ k2) : List.lookup k2 (delEntry m k) = List.lookup k2 m := by
  induction m with
  | nil => simp [delEntry, List.lookup]
  | cons p rest ih =>
      obtain ⟨k0, v0⟩ := p
      by_cases h0 : k0 = k
      · subst h0
        have h2 : (k2 == k0) = false := by
          simp [beq_iff_eq]
          exact fun he => h he.symm
        simpa [delEntry, List.filter, List.lookup, h2] using ih
      · have h2 : (k0 != k) = true := by simp [bne_iff_ne, h0]
        by_cases h3 : k2 = k0
        · subst h3
          simp [delEntry, List.filter, h2, List.lookup]
        · have h4 : (k2 == k0) = false := by simp [beq_iff_eq, h3]
          simp only [delEntry, List.filter] at ih ⊢
          simp [h2, List.lookup, h4, ih]

theorem mem_delEntry {β : Type} (m : List (String × β)) (k : String) (p : String × β)
    (h : p ∈ delEntry m k) : p ∈ m ∧ p.1 ≠ k := by
  simp only [delEntry, List.mem_filter, bne_iff_ne] at h
  exact h

/-- C6: a frame whose text is not valid JSON, such as the frame consisting of
an opening brace followed by the text "not json", does not throw past the
decode boundary, and the reconciled participant map is exactly the same
after processing the frame as before it. -/
theorem claim_C6_malformed_frame_no_change :
    parseJson "\x7bnot json" = none ∧
    ∀ (s : String) (now : Int) (st : DashState),
      parseJson s = none → handleDashboardMessage s now st = st := by
  refine ⟨rfl, ?_⟩
  intro s now st h
  simp [handleDashboardMessage, h]

/-- C6 witness: the malformed frame leaves a concrete state untouched. -/
theorem claim_C6_witness :
    handleDashboardMessage "\x7bnot json" 5 initialDashState = initialDashState :=
  claim_C6_malformed_frame_no_change.2 "\x7bnot json" 5 initialDashState (by rfl)

/-- C9 counterexample: in the web-socket hook variant, after close has been
initiated on an open connection, a transport error event is still forwarded
to the owning callback, contradicting the claimed suppression. -/
theorem claim_C9_counterexample :
    (onTransportError
        (closeConn { readyState := 1, errorsForwarded := 0, isUnmounting := false })).errorsForwarded
      = 1 ∧
    (closeConn { readyState := 1, errorsForwarded := 0, isUnmounting := false }).readyState = 2 := by
  constructor <;> rfl

/-- C9 amended: in the use-web-socket hook variant, once teardown has
initiated the close (setting the unmounting flag before closing the
transport), a subsequent transport error event is not forwarded: the error
handler leaves the connection state, including the forwarded-error count,
unchanged. -/
theorem claim_C9_amended_suppression :
    ∀ st : ConnState, onTransportErrorV2 (cleanupV2 st) = cleanupV2 st := by
  intro st
  have h : (cleanupV2 st).isUnmounting = true := by
    unfold cleanupV2
    simp only []
    split <;> rfl
  unfold onTransportErrorV2
  simp [h]

/-- C4: processing a patientRemoved message deletes the entry for that
clientId entirely, and an initialState carrying one snapshot for p1 with
status idle and lastActivity 1000 followed by patientRemoved for p1 yields
an empty reconciled map. -/
theorem claim_C4_patientRemoved_deletes :
    (∀ (patients : List (String × PatientInfo)) (c : String) (now ts : Int),
        c ≠ "" →
        List.lookup c (handleDashboardMsgV2 (removedMsg c ts) now patients) = none) ∧
    handleDashboardMsgV2 (removedMsg "p1" 2000) 2000
        (handleDashboardMsgV2
          (initialStateMsg
            [Json.obj [("clientId", Json.str "p1"), ("status", Json.str "idle"),
                       ("lastActivity", Json.num 1000)]] 1500)
          1500 []) = [] := by
  constructor
  · intro patients c now ts h
    have h2 : (c != "") = true := by simp [bne_iff_ne, h]
    have key : handleDashboardMsgV2 (removedMsg c ts) now patients = delEntry patients c := by
      simp [handleDashboardMsgV2, removedMsg, getFieldT, jsStrEq, truthy, isArrayV,
        jsKey, jsonStr, List.lookup, h2]
    rw [key]
    exact lookup_delEntry_self patients c
  · rfl

/-- C4 witness: removing a concretely present participant leaves no entry. -/
theorem claim_C4_witness :
    List.lookup "p1"
        (handleDashboardMsgV2 (removedMsg "p1" 9) 9
          [("p1", { summary := JsVal.val (Json.obj []), ts := JsVal.val (Json.num 1),
                    isLiveConnected := JsVal.undefined,
                    status := JsVal.val (Json.str "online"),
                    lastActivity := JsVal.val (Json.num 1) })]) = none :=
  claim_C4_patientRemoved_deletes.1 _ "p1" 9 9 (by decide)

/-- C1 counterexample: after a patientDisconnected at timestamp 10000 marked
the entry disconnected, a stale status message with state online and the
older timestamp 5000 for the same clientId changes the status back to
online, with no fresh patientConnected signal involved. -/
theorem claim_C1_counterexample :
    ((List.lookup "p1"
        (handleDashboardMsg (disconnectMsg "p1" 10000) 10000
          (handleDashboardMsg (statusMsg "p1" "online" 1000) 2000
            initialDashState)).patients).map (fun pi => pi.status)
      = some (JsVal.val (Json.str "disconnected"))) ∧
    ((List.lookup "p1"
        (handleDashboardMsg (statusMsg "p1" "online" 5000) 11000
          (handleDashboardMsg (disconnectMsg "p1" 10000) 10000
            (handleDashboardMsg (statusMsg "p1" "online" 1000) 2000
              initialDashState))).patients).map (fun pi => pi.status)
      = some (JsVal.val (Json.str "online"))) := by
  constructor <;> rfl

/-- C1 amended: a status message with state online for a clientId whose
entry is disconnected sets that status back to online regardless of the
message timestamp; the reconciler performs no timestamp comparison, so no
fresh patientConnected signal is required to resurrect the entry. -/
theorem claim_C1_amended_stale_online_resurrects :
    ∀ (st : DashState) (c : String) (ts now : Int) (pi : PatientInfo),
      c ≠ "" → List.lookup c st.patients = some pi →
      pi.status = JsVal.val (Json.str "disconnected") →
      ∃ pi2, List.lookup c (handleDashboardMsg (statusMsg c "online" ts) now st).patients
          = some pi2 ∧ pi2.status = JsVal.val (Json.str "online") := by
  intro st c ts now pi h hlook hdis
  have h2 : (c != "") = true := by simp [bne_iff_ne, h]
  have key : (handleDashboardMsg (statusMsg c "online" ts) now st).patients
      = setEntry st.patients c
          { summary := jsOr (optSummary (List.lookup c st.patients)) (JsVal.val (Json.obj [])),
            ts := jsOr (JsVal.val (Json.num ts)) (JsVal.val (Json.num now)),
            isLiveConnected := optLive (List.lookup c st.patients),
            status := JsVal.val (Json.str "online"),
            lastActivity := JsVal.val (Json.num now) } := by
    simp [handleDashboardMsg, statusMsg, getFieldT, jsStrEq, truthy, isArrayV,
      validStatusV, jsKey, jsonStr, List.lookup, h2]
  rw [key]
  exact ⟨_, lookup_setEntry_self _ _ _, rfl⟩

/-- C1 witness: the amended statement at the concrete disconnected state of
the counterexample run. -/
theorem claim_C1_witness :
    ∃ pi2, List.lookup "p1"
        (handleDashboardMsg (statusMsg "p1" "online" 5000) 11000
          (handleDashboardMsg (disconnectMsg "p1" 10000) 10000
            (handleDashboardMsg (statusMsg "p1" "online" 1000) 2000
              initialDashState))).patients
        = some pi2 ∧ pi2.status = JsVal.val (Json.str "online") :=
  claim_C1_amended_stale_online_resurrects _ "p1" 5000 11000
    { summary := JsVal.val (Json.obj []), ts := JsVal.val (Json.num 10000),
      isLiveConnected := JsVal.undefined,
      status := JsVal.val (Json.str "disconnected"),
      lastActivity := JsVal.val (Json.num 2000) }
    (by decide) (by rfl) (by rfl)

/-! Helper lemmas about the removal scheduler. -/

theorem scheduleRemoval_patients_zero (c r : String) (t now : Int) (st : DashState)
    (h : max 0 (10000 - (now - t)) = 0) :
    (scheduleRemoval c t now r st).patients = delEntry st.patients c := by
  unfold scheduleRemoval
  cases hm : List.lookup c st.timerRef <;> simp [hm, h]

theorem scheduleRemoval_patients_pos (c r : String) (t now : Int) (st : DashState)
    (h : max 0 (10000 - (now - t)) ≠ 0) :
    (scheduleRemoval c t now r st).patients = st.patients ∧
    (⟨st.nextTid, c, now + max 0 (10000 - (now - t))⟩ : Timer)
      ∈ (scheduleRemoval c t now r st).pending := by
  unfold scheduleRemoval
  cases hm : List.lookup c st.timerRef <;> simp [hm, h]

theorem fireRemovalTimer_lookup_none (c : String) (tm : Timer) (st : DashState)
    (h : tm.clientId = c) :
    List.lookup c (fireRemovalTimer tm st).patients = none := by
  unfold fireRemovalTimer
  simp only []
  rw [h]
  exact lookup_delEntry_self _ _

/-- C2: for a disconnect or submission event with timestamp t observed at
wall time now, the scheduler computes remaining as the larger of zero and
10000 minus the elapsed time; when remaining is zero the entry is deleted
immediately, otherwise a one-shot timer for exactly remaining milliseconds
is armed whose firing deletes the entry. Concretely, a disconnect whose
timestamp lies 12000 ms in the past deletes the entry at once, and a
disconnect stamped at the current instant arms a timer that deletes it
10000 ms later. -/
theorem claim_C2_removal_scheduler :
    (∀ (c reason : String) (t now : Int) (st : DashState),
        max 0 (10000 - (now - t)) = 0 →
        List.lookup c (scheduleRemoval c t now reason st).patients = none) ∧
    (∀ (c reason : String) (t now : Int) (st : DashState),
        max 0 (10000 - (now - t)) ≠ 0 →
        (scheduleRemoval c t now reason st).patients = st.patients ∧
        ∃ tm : Timer, tm ∈ (scheduleRemoval c t now reason st).pending ∧
          tm.clientId = c ∧ tm.fireAt = now + max 0 (10000 - (now - t)) ∧
          List.lookup c (fireRemovalTimer tm (scheduleRemoval c t now reason st)).patients
            = none) ∧
    (List.lookup "p1"
        (handleDashboardMsg (disconnectMsg "p1" 88000) 100000
          (handleDashboardMsg (statusMsg "p1" "online" 99000) 99500
            initialDashState)).patients = none) ∧
    ((handleDashboardMsg (disconnectMsg "p1" 100000) 100000
        (handleDashboardMsg (statusMsg "p1" "online" 99000) 99500
          initialDashState)).pending
      = [⟨1, "p1", 110000⟩] ∧
     List.lookup "p1"
        (fireRemovalTimer ⟨1, "p1", 110000⟩
          (handleDashboardMsg (disconnectMsg "p1" 100000) 100000
            (handleDashboardMsg (statusMsg "p1" "online" 99000) 99500
              initialDashState))).patients = none) := by
  refine ⟨?_, ?_, by rfl, by rfl, by rfl⟩
  · intro c reason t now st h
    rw [scheduleRemoval_patients_zero c reason t now st h]
    exact lookup_delEntry_self _ _
  · intro c reason t now st h
    obtain ⟨hp, hmem⟩ := scheduleRemoval_patients_pos c reason t now st h
    exact ⟨hp, ⟨st.nextTid, c, now + max 0 (10000 - (now - t))⟩, hmem, rfl, rfl,
      fireRemovalTimer_lookup_none c _ _ rfl⟩

/-- C2 witness: the immediate-deletion law applied to a concrete stale
submission event, and the timer law applied to a fresh one. -/
theorem claim_C2_witness :
    List.lookup "p7"
        (scheduleRemoval "p7" 0 12000 "submitted"
          { patients := [("p7",
              { summary := JsVal.val (Json.obj []), ts := JsVal.val (Json.num 0),
                isLiveConnected := JsVal.undefined,
                status := JsVal.val (Json.str "online"),
                lastActivity := JsVal.val (Json.num 0) })],
            pending := [], timerRef := [], nextTid := 1 }).patients = none :=
  claim_C2_removal_scheduler.1 "p7" "submitted" 0 12000 _ (by decide)

/-! Frame lemmas for the patientDisconnected and status branches within the
grace window, where the scheduler arms a timer instead of deleting. -/

theorem disconnect_patients_eq (st : DashState) (c : String) (t now : Int)
    (h : c ≠ "") (ht : t ≠ 0) (hg : now - t < 10000) :
    (handleDashboardMsg (disconnectMsg c t) now st).patients
      = setEntry st.patients c (mkDisconnectedInfo (List.lookup c st.patients) t now) := by
  have h2 : (c != "") = true := by simp [bne_iff_ne, h]
  have h3 : (t != 0) = true := by simp [bne_iff_ne, ht]
  have hrem : max 0 (10000 - (now - t)) ≠ 0 := by omega
  have key : handleDashboardMsg (disconnectMsg c t) now st
      = scheduleRemoval c t now "disconnected"
          { st with patients := setEntry st.patients c (mkDisconnectedInfo (List.lookup c st.patients) t now) } := by
    simp [handleDashboardMsg, disconnectMsg, getFieldT, jsStrEq, truthy, isArrayV,
      jsKey, jsonStr, List.lookup, h2, jsOr, h3, jsNum, mkDisconnectedInfo]
  rw [key]
  exact (scheduleRemoval_patients_pos c "disconnected" t now _ hrem).1

theorem status_patients_eq (st : DashState) (c s : String) (ts now : Int)
    (h : c ≠ "") (hs : validStatusV (JsVal.val (Json.str s)) = true) :
    (handleDashboardMsg (statusMsg c s ts) now st).patients
      = setEntry st.patients c
          { summary := jsOr (optSummary (List.lookup c st.patients)) (JsVal.val (Json.obj [])),
            ts := jsOr (JsVal.val (Json.num ts)) (JsVal.val (Json.num now)),
            isLiveConnected := optLive (List.lookup c st.patients),
            status := JsVal.val (Json.str s),
            lastActivity := JsVal.val (Json.num now) } := by
  have h2 : (c != "") = true := by simp [bne_iff_ne, h]
  have hns : s ≠ "" := by
    intro he
    subst he
    simp [validStatusV, jsStrEq] at hs
  simp [handleDashboardMsg, statusMsg, getFieldT, jsStrEq, truthy, isArrayV,
    jsKey, jsonStr, List.lookup, h2, hs, hns]

/-- C5: for a map containing an entry for the clientId, a patientDisconnected
message within the grace window sets that entry status to disconnected while
leaving its summary and its prior lastActivity value unchanged; the activity
time is not advanced to the message arrival time. -/
theorem claim_C5_disconnect_preserves_summary_activity :
    ∀ (st : DashState) (c : String) (t now : Int) (pi : PatientInfo),
      c ≠ "" → t ≠ 0 → now - t < 10000 →
      List.lookup c st.patients = some pi →
      truthy pi.lastActivity = true →
      ∃ pi2, List.lookup c (handleDashboardMsg (disconnectMsg c t) now st).patients
          = some pi2
        ∧ pi2.status = JsVal.val (Json.str "disconnected")
        ∧ pi2.summary = pi.summary
        ∧ pi2.lastActivity = pi.lastActivity := by
  intro st c t now pi h ht hg hlook hact
  rw [disconnect_patients_eq st c t now h ht hg, hlook]
  refine ⟨_, lookup_setEntry_self _ _ _, rfl, rfl, ?_⟩
  simp [mkDisconnectedInfo, optLastActivity, jsOr, hact]

/-- C5 witness: disconnecting a concrete present participant keeps its
summary and prior activity time. -/
theorem claim_C5_witness :
    ∃ pi2, List.lookup "p1"
        (handleDashboardMsg (disconnectMsg "p1" 3000) 3500
          (handleDashboardMsg (statusMsg "p1" "online" 1000) 2000
            initialDashState)).patients = some pi2
      ∧ pi2.status = JsVal.val (Json.str "disconnected")
      ∧ pi2.summary = JsVal.val (Json.obj [])
      ∧ pi2.lastActivity = JsVal.val (Json.num 2000) :=
  claim_C5_disconnect_preserves_summary_activity _ "p1" 3000 3500
    { summary := JsVal.val (Json.obj []), ts := JsVal.val (Json.num 1000),
      isLiveConnected := JsVal.undefined,
      status := JsVal.val (Json.str "online"),
      lastActivity := JsVal.val (Json.num 2000) }
    (by decide) (by decide) (by decide) (by rfl) (by rfl)

/-- C10: a patientDisconnected message within the grace window for a
clientId with no entry creates an entry with status disconnected, with
lastActivity equal to the message-arrival time, and with no summary value
at all; by contrast the status branch, also creating an entry, defaults the
summary to the empty record. -/
theorem claim_C10_disconnect_entry_without_summary :
    ∀ (st : DashState) (c c2 : String) (t now : Int),
      c ≠ "" → t ≠ 0 → now - t < 10000 →
      List.lookup c st.patients = none →
      (List.lookup c (handleDashboardMsg (disconnectMsg c t) now st).patients
        = some { summary := JsVal.undefined, ts := JsVal.val (Json.num t),
                 isLiveConnected := JsVal.undefined,
                 status := JsVal.val (Json.str "disconnected"),
                 lastActivity := JsVal.val (Json.num now) }) ∧
      (c2 ≠ "" → List.lookup c2 st.patients = none →
        ∃ pi2, List.lookup c2
            (handleDashboardMsg (statusMsg c2 "online" t) now st).patients = some pi2
          ∧ pi2.summary = JsVal.val (Json.obj [])) := by
  intro st c c2 t now h ht hg hlook
  constructor
  · rw [disconnect_patients_eq st c t now h ht hg, hlook]
    exact lookup_setEntry_self _ _ _
  · intro h2 hlook2
    rw [status_patients_eq st c2 "online" t now h2 (by rfl), hlook2]
    exact ⟨_, lookup_setEntry_self _ _ _, rfl⟩

/-- C10 witness: the summaryless creation and the contrasting default at
concrete inputs on the empty map. -/
theorem claim_C10_witness :
    (List.lookup "p1" (handleDashboardMsg (disconnectMsg "p1" 500) 600
        initialDashState).patients
      = some { summary := JsVal.undefined, ts := JsVal.val (Json.num 500),
               isLiveConnected := JsVal.undefined,
               status := JsVal.val (Json.str "disconnected"),
               lastActivity := JsVal.val (Json.num 600) }) ∧
    ("p2" ≠ "" → List.lookup "p2" initialDashState.patients = none →
      ∃ pi2, List.lookup "p2"
          (handleDashboardMsg (statusMsg "p2" "online" 500) 600
            initialDashState).patients = some pi2
        ∧ pi2.summary = JsVal.val (Json.obj [])) :=
  claim_C10_disconnect_entry_without_summary initialDashState "p1" "p2" 500 600
    (by decide) (by decide) (by decide) (by rfl)

/-! Lemmas on the removal timer bookkeeping invariant. -/

theorem clearRemovalTimer_patients (c : String) (st : DashState) :
    (clearRemovalTimer c st).patients = st.patients := by
  unfold clearRemovalTimer
  cases List.lookup c st.timerRef <;> rfl

theorem jsGetV_val_nonnull (p : Json) (k : String) (h : p ≠ Json.null) :
    jsGetV (JsVal.val p) k = some (getFieldT p k) := by
  cases p with
  | null => exact absurd rfl h
  | bool b => rfl
  | num n => rfl
  | str s => rfl
  | arr xs => rfl
  | obj fs => rfl

theorem timerInv_clearRemovalTimer (c : String) (st : DashState) (h : timerInv st) :
    timerInv (clearRemovalTimer c st) := by
  obtain ⟨h1, h2, h3⟩ := h
  unfold clearRemovalTimer
  cases hm : List.lookup c st.timerRef with
  | none => exact ⟨h1, h2, h3⟩
  | some tid0 =>
      refine ⟨?_, ?_, ?_⟩
      · intro tm hmem
        simp only [List.mem_filter, bne_iff_ne, decide_eq_true_eq] at hmem
        obtain ⟨hmem, hne⟩ := hmem
        have hcne : tm.clientId ≠ c := by
          intro he
          apply hne
          have := h1 tm hmem
          rw [he, hm] at this
          exact (Option.some.inj this).symm
        rw [lookup_delEntry_ne _ _ _ (fun he => hcne he.symm)]
        exact h1 tm hmem
      · intro tm hmem
        simp only [List.mem_filter] at hmem
        exact h2 tm hmem.1
      · exact h3.sublist (List.filter_sublist _)

theorem clearRemovalTimer_no_pending (c : String) (st : DashState) (h : timerInv st) :
    ∀ tm ∈ (clearRemovalTimer c st).pending, tm.clientId ≠ c := by
  obtain ⟨h1, h2, h3⟩ := h
  unfold clearRemovalTimer
  cases hm : List.lookup c st.timerRef with
  | none =>
      intro tm hmem he
      have := h1 tm hmem
      rw [he, hm] at this
      exact Option.noConfusion this
  | some tid0 =>
      intro tm hmem he
      simp only [List.mem_filter, bne_iff_ne, decide_eq_true_eq] at hmem
      obtain ⟨hmem, hne⟩ := hmem
      apply hne
      have := h1 tm hmem
      rw [he, hm] at this
      exact (Option.some.inj this).symm

theorem timerInv_scheduleRemoval (c r : String) (t now : Int) (st : DashState)
    (h : timerInv st) : timerInv (scheduleRemoval c t now r st) := by
  obtain ⟨h1, h2, h3⟩ := h
  have noPend : List.lookup c st.timerRef = none →
      ∀ tm ∈ st.pending, tm.clientId ≠ c := by
    intro hm tm hmem he
    have := h1 tm hmem
    rw [he, hm] at this
    exact Option.noConfusion this
  unfold scheduleRemoval
  cases hm : List.lookup c st.timerRef with
  | none =>
      simp only []
      split
      · refine ⟨?_, h2, h3⟩
        intro tm hmem
        rw [lookup_delEntry_ne _ _ _ (fun he => noPend hm tm hmem he.symm)]
        exact h1 tm hmem
      · refine ⟨?_, ?_, ?_⟩
        · intro tm hmem
          simp only [List.mem_append, List.mem_singleton] at hmem
          cases hmem with
          | inl hmem =>
              rw [lookup_setEntry_ne _ _ _ _ (fun he => noPend hm tm hmem he.symm)]
              exact h1 tm hmem
          | inr hmem =>
              rw [hmem]
              exact lookup_setEntry_self _ _ _
        · intro tm hmem
          simp only [List.mem_append, List.mem_singleton] at hmem
          cases hmem with
          | inl hmem => exact Nat.lt_succ_of_lt (h2 tm hmem)
          | inr hmem => rw [hmem]; exact Nat.lt_succ_self _
        · rw [List.pairwise_append]
          refine ⟨h3, List.pairwise_singleton _ _, ?_⟩
          intro a ha b hb
          simp only [List.mem_singleton] at hb
          rw [hb]
          exact Nat.ne_of_lt (h2 a ha)
  | some tid0 =>
      simp only []
      split
      · refine ⟨?_, ?_, ?_⟩
        · intro tm hmem
          simp only [List.mem_filter, bne_iff_ne, decide_eq_true_eq] at hmem
          obtain ⟨hmem, hne⟩ := hmem
          have hcne : tm.clientId ≠ c := by
            intro he
            apply hne
            have := h1 tm hmem
            rw [he, hm] at this
            exact (Option.some.inj this).symm
          rw [lookup_delEntry_ne _ _ _ (fun he => hcne he.symm)]
          exact h1 tm hmem
        · intro tm hmem
          simp only [List.mem_filter] at hmem
          exact h2 tm hmem.1
        · exact h3.sublist (List.filter_sublist _)
      · refine ⟨?_, ?_, ?_⟩
        · intro tm hmem
          simp only [List.mem_append, List.mem_singleton] at hmem
          cases hmem with
          | inl hmem =>
              simp only [List.mem_filter, bne_iff_ne, decide_eq_true_eq] at hmem
              obtain ⟨hmem, hne⟩ := hmem
              have hcne : tm.clientId ≠ c := by
                intro he
                apply hne
                have := h1 tm hmem
                rw [he, hm] at this
                exact (Option.some.inj this).symm
              rw [lookup_setEntry_ne _ _ _ _ (fun he => hcne he.symm)]
              exact h1 tm hmem
          | inr hmem =>
              rw [hmem]
              exact lookup_setEntry_self _ _ _
        · intro tm hmem
          simp only [List.mem_append, List.mem_singleton] at hmem
          cases hmem with
          | inl hmem =>
              simp only [List.mem_filter] at hmem
              exact Nat.lt_succ_of_lt (h2 tm hmem.1)
          | inr hmem => rw [hmem]; exact Nat.lt_succ_self _
        · rw [List.pairwise_append]
          refine ⟨h3.sublist (List.filter_sublist _), List.pairwise_singleton _ _, ?_⟩
          intro a ha b hb
          simp only [List.mem_filter] at ha
          simp only [List.mem_singleton] at hb
          rw [hb]
          exact Nat.ne_of_lt (h2 a ha.1)

theorem timerInv_fireRemovalTimer (tm0 : Timer) (st : DashState)
    (h : timerInv st) (hmem0 : tm0 ∈ st.pending) :
    timerInv (fireRemovalTimer tm0 st) := by
  obtain ⟨h1, h2, h3⟩ := h
  unfold fireRemovalTimer
  refine ⟨?_, ?_, ?_⟩
  · intro tm hmem
    simp only [List.mem_filter, bne_iff_ne, decide_eq_true_eq] at hmem
    obtain ⟨hmem, hne⟩ := hmem
    have hcne : tm.clientId ≠ tm0.clientId := by
      intro he
      apply hne
      have ha := h1 tm hmem
      have hb := h1 tm0 hmem0
      rw [he, hb] at ha
      exact (Option.some.inj ha).symm
    rw [lookup_delEntry_ne _ _ _ (fun he => hcne he.symm)]
    exact h1 tm hmem
  · intro tm hmem
    simp only [List.mem_filter] at hmem
    exact h2 tm hmem.1
  · exact h3.sublist (List.filter_sublist _)

theorem timerInv_initLoop (now : Int) (xs : List Json) :
    ∀ (acc : List (String × PatientInfo)) (st : DashState),
      timerInv st → timerInv (initLoop now xs acc st).2 := by
  induction xs with
  | nil => intro acc st h; simpa [initLoop] using h
  | cons p rest ih =>
      intro acc st h
      cases p <;> first
        | simpa [initLoop] using h
        | (simp only [initLoop]
           refine ih _ _ ?_
           split_ifs <;> first
             | exact timerInv_scheduleRemoval _ _ _ _ _ h
             | exact h)

theorem timerInv_handleDashboardMsg (msg : Json) (now : Int) (st : DashState)
    (h : timerInv st) : timerInv (handleDashboardMsg msg now st) := by
  cases msg <;> first
    | exact h
    | (simp only [handleDashboardMsg]
       split_ifs <;> first
         | exact h
         | exact timerInv_clearRemovalTimer _ _ h
         | exact timerInv_scheduleRemoval _ _ _ _ _ h
         | (split
            · split
              · rename_i l hpl pr acc st2 heq2
                have := timerInv_initLoop now l [] st h
                rw [heq2] at this
                exact this
              · rename_i l hpl pr st2 heq2
                have := timerInv_initLoop now l [] st h
                rw [heq2] at this
                exact this
            · exact h)
         | (split
            · exact h
            · split_ifs <;> first
                | exact timerInv_scheduleRemoval _ _ _ _ _
                    (timerInv_clearRemovalTimer _ _ h)
                | exact timerInv_scheduleRemoval _ _ _ _ _ h
                | exact timerInv_clearRemovalTimer _ _ h
                | exact h))

theorem timerInv_atMostOne (st : DashState) (h : timerInv st) :
    atMostOnePerClient st := by
  obtain ⟨h1, h2, h3⟩ := h
  refine List.Pairwise.imp_of_mem ?_ h3
  intro a b ha hb htid he
  have hha := h1 a ha
  have hhb := h1 b hb
  rw [he, hhb] at hha
  exact htid (Option.some.inj hha).symm

theorem fireRemovalTimer_lookup_ne (c : String) (tm : Timer) (st : DashState)
    (h : tm.clientId ≠ c) :
    List.lookup c (fireRemovalTimer tm st).patients = List.lookup c st.patients := by
  unfold fireRemovalTimer
  exact lookup_delEntry_ne _ _ _ h

theorem summary_reduce (st : DashState) (c : String) (payload : Json) (ts now : Int)
    (hc : c ≠ "") (hnn : payload ≠ Json.null)
    (hsub : truthy (getFieldT payload "submitted") = false) :
    handleDashboardMsg (summaryMsg c payload ts) now st
      = { clearRemovalTimer c st with patients := setEntry st.patients c (mkSummaryInfo (List.lookup c st.patients) (JsVal.val payload) (JsVal.val (Json.num ts)) now) } := by
  have h2 : (c != "") = true := by simp [bne_iff_ne, hc]
  simp [getFieldT, truthy] at hsub
  simp [handleDashboardMsg, summaryMsg, getFieldT, jsStrEq, jsKey, jsonStr,
    List.lookup, h2, jsGetV_val_nonnull _ _ hnn, hsub, mkSummaryInfo,
    clearRemovalTimer_patients, optChain, truthy]

theorem connected_reduce (st : DashState) (c : String) (ts now : Int)
    (hc : c ≠ "") :
    handleDashboardMsg (connectedMsg c ts) now st
      = { clearRemovalTimer c st with patients := setEntry st.patients c (mkConnectedInfo (List.lookup c st.patients) (JsVal.val (Json.num ts)) now) } := by
  have h2 : (c != "") = true := by simp [bne_iff_ne, hc]
  simp [handleDashboardMsg, connectedMsg, getFieldT, jsStrEq, jsKey, jsonStr,
    List.lookup, h2, mkConnectedInfo, clearRemovalTimer_patients, truthy, isArrayV]

/-- C3: the removal timer bookkeeping keeps at most one pending removal
timer per clientId at every point reachable by message handling and timer
firing (re-arming replaces rather than stacks), and newer activity for a
clientId before the timer fires, either a summary whose payload has a falsy
submitted flag or a patientConnected event, cancels every outstanding
removal timer of that clientId while its entry is present, so that no later
timer firing can delete the entry. -/
theorem claim_C3_one_timer_and_cancellation :
    timerInv initialDashState ∧
    (∀ (msg : Json) (now : Int) (st : DashState),
        timerInv st → timerInv (handleDashboardMsg msg now st)) ∧
    (∀ (tm : Timer) (st : DashState),
        timerInv st → tm ∈ st.pending → timerInv (fireRemovalTimer tm st)) ∧
    (∀ st : DashState, timerInv st → atMostOnePerClient st) ∧
    (∀ (st : DashState) (c : String) (payload : Json) (ts now : Int),
        timerInv st → c ≠ "" → payload ≠ Json.null →
        truthy (getFieldT payload "submitted") = false →
        ((handleDashboardMsg (summaryMsg c payload ts) now st).pending.all
            (fun tm => tm.clientId != c)) = true ∧
        (List.lookup c
            (handleDashboardMsg (summaryMsg c payload ts) now st).patients).isSome
          = true ∧
        (∀ tm ∈ (handleDashboardMsg (summaryMsg c payload ts) now st).pending,
            List.lookup c
              (fireRemovalTimer tm
                (handleDashboardMsg (summaryMsg c payload ts) now st)).patients
            = List.lookup c
                (handleDashboardMsg (summaryMsg c payload ts) now st).patients)) ∧
    (∀ (st : DashState) (c : String) (ts now : Int),
        timerInv st → c ≠ "" →
        ((handleDashboardMsg (connectedMsg c ts) now st).pending.all
            (fun tm => tm.clientId != c)) = true ∧
        (List.lookup c
            (handleDashboardMsg (connectedMsg c ts) now st).patients).isSome = true ∧
        (∀ tm ∈ (handleDashboardMsg (connectedMsg c ts) now st).pending,
            List.lookup c
              (fireRemovalTimer tm
                (handleDashboardMsg (connectedMsg c ts) now st)).patients
            = List.lookup c
                (handleDashboardMsg (connectedMsg c ts) now st).patients)) := by
  refine ⟨?_, timerInv_handleDashboardMsg, timerInv_fireRemovalTimer,
    timerInv_atMostOne, ?_, ?_⟩
  · refine ⟨?_, ?_, ?_⟩ <;> simp [initialDashState]
  · intro st c payload ts now hinv hc hnn hsub
    rw [summary_reduce st c payload ts now hc hnn hsub]
    refine ⟨?_, ?_, ?_⟩
    · rw [List.all_eq_true]
      intro tm hmem
      simp only [bne_iff_ne, ne_eq, decide_eq_true_eq]
      exact clearRemovalTimer_no_pending c st hinv tm hmem
    · rw [lookup_setEntry_self]
      rfl
    · intro tm hmem
      exact fireRemovalTimer_lookup_ne c tm _
        (clearRemovalTimer_no_pending c st hinv tm hmem)
  · intro st c ts now hinv hc
    rw [connected_reduce st c ts now hc]
    refine ⟨?_, ?_, ?_⟩
    · rw [List.all_eq_true]
      intro tm hmem
      simp only [bne_iff_ne, ne_eq, decide_eq_true_eq]
      exact clearRemovalTimer_no_pending c st hinv tm hmem
    · rw [lookup_setEntry_self]
      rfl
    · intro tm hmem
      exact fireRemovalTimer_lookup_ne c tm _
        (clearRemovalTimer_no_pending c st hinv tm hmem)

/-- C3 witness: after a disconnect armed a removal timer for p1, a summary
with a falsy submitted flag cancels it and the entry is present. -/
theorem claim_C3_witness :
    ((handleDashboardMsg
        (summaryMsg "p1" (Json.obj [("progress", Json.num 40)]) 10500) 10500
        (handleDashboardMsg (disconnectMsg "p1" 10000) 10000
          (handleDashboardMsg (statusMsg "p1" "online" 1000) 2000
            initialDashState))).pending.all (fun tm => tm.clientId != "p1")) = true ∧
    (List.lookup "p1"
        (handleDashboardMsg
          (summaryMsg "p1" (Json.obj [("progress", Json.num 40)]) 10500) 10500
          (handleDashboardMsg (disconnectMsg "p1" 10000) 10000
            (handleDashboardMsg (statusMsg "p1" "online" 1000) 2000
              initialDashState))).patients).isSome = true := by
  have hinv : timerInv
      (handleDashboardMsg (disconnectMsg "p1" 10000) 10000
        (handleDashboardMsg (statusMsg "p1" "online" 1000) 2000
          initialDashState)) := by
    refine ⟨?_, ?_, ?_⟩
    · intro tm hmem
      simp only [show (handleDashboardMsg (disconnectMsg "p1" 10000) 10000
          (handleDashboardMsg (statusMsg "p1" "online" 1000) 2000
            initialDashState)).pending = [⟨1, "p1", 20000⟩] from rfl,
        List.mem_singleton] at hmem
      subst hmem
      rfl
    · intro tm hmem
      simp only [show (handleDashboardMsg (disconnectMsg "p1" 10000) 10000
          (handleDashboardMsg (statusMsg "p1" "online" 1000) 2000
            initialDashState)).pending = [⟨1, "p1", 20000⟩] from rfl,
        List.mem_singleton] at hmem
      subst hmem
      decide
    · rw [show (handleDashboardMsg (disconnectMsg "p1" 10000) 10000
          (handleDashboardMsg (statusMsg "p1" "online" 1000) 2000
            initialDashState)).pending = [⟨1, "p1", 20000⟩] from rfl]
      exact List.pairwise_singleton _ _
  obtain ⟨hall, hsome, _⟩ :=
    (claim_C3_one_timer_and_cancellation.2.2.2.2.1)
      (handleDashboardMsg (disconnectMsg "p1" 10000) 10000
        (handleDashboardMsg (statusMsg "p1" "online" 1000) 2000
          initialDashState))
      "p1" (Json.obj [("progress", Json.num 40)]) 10500 10500
      hinv (by decide) (fun h => Json.noConfusion h) (by rfl)
  exact ⟨hall, hsome⟩

/-! Lemmas on the debounced summary lane. -/

theorem debounceStep_busy (st : DebState) (e : Int × String) (tid : Nat)
    (t0 : Int) (m0 : String)
    (hp : st.pendingT = [(tid, t0 + 600, m0)])
    (hr : st.debounceTimer = some tid)
    (hle : t0 ≤ e.1) (hlt : e.1 - t0 < 600) :
    (debounceStep st e).pendingT = [(st.nextT, e.1 + 600, e.2)] ∧
    (debounceStep st e).debounceTimer = some st.nextT ∧
    (debounceStep st e).nextT = st.nextT + 1 ∧
    (debounceStep st e).sent = st.sent ∧
    (debounceStep st e).wsOpen = st.wsOpen := by
  have hfire : fireDueDebounce e.1 st.pendingT.length st = st := by
    have h1 : ¬ (t0 + 600 ≤ e.1) := by omega
    simp only [hp, List.length_cons, List.length_nil, Nat.zero_add]
    unfold fireDueDebounce
    simp [hp, List.find?, h1]
  unfold debounceStep
  rw [hfire]
  unfold sendDebounced
  rw [hr]
  simp [hp]

theorem runBurst_busy :
    ∀ (evs : List (Int × String)) (st : DebState) (tid : Nat) (t0 : Int) (m0 : String),
      st.pendingT = [(tid, t0 + 600, m0)] →
      st.debounceTimer = some tid →
      List.Chain (fun a b => a.1 ≤ b.1 ∧ b.1 - a.1 < 600) (t0, m0) evs →
      ∃ tid2,
        (runDebounceBurst evs st).pendingT
          = [(tid2, (lastEv (t0, m0) evs).1 + 600, (lastEv (t0, m0) evs).2)] ∧
        (runDebounceBurst evs st).debounceTimer = some tid2 ∧
        (runDebounceBurst evs st).sent = st.sent ∧
        (runDebounceBurst evs st).wsOpen = st.wsOpen := by
  intro evs
  induction evs with
  | nil =>
      intro st tid t0 m0 hp hr hch
      exact ⟨tid, hp, hr, rfl, rfl⟩
  | cons e rest ih =>
      intro st tid t0 m0 hp hr hch
      obtain ⟨⟨hle, hlt⟩, hch2⟩ := List.chain_cons.mp hch
      obtain ⟨s1, s2, s3, s4, s5⟩ := debounceStep_busy st e tid t0 m0 hp hr hle hlt
      have hrun : runDebounceBurst (e :: rest) st
          = runDebounceBurst rest (debounceStep st e) := by
        unfold runDebounceBurst
        rw [List.foldl_cons]
      rw [hrun]
      obtain ⟨tid2, h1, h2, h3, h4⟩ :=
        ih (debounceStep st e) st.nextT e.1 e.2 s1 s2 (by
          obtain ⟨a, b⟩ := e
          exact hch2)
      refine ⟨tid2, ?_, h2, ?_, ?_⟩
      · have hlast : lastEv (t0, m0) (e :: rest) = lastEv e rest := rfl
        rw [hlast]
        obtain ⟨a, b⟩ := e
        exact h1
      · rw [h3, s4]
      · rw [h4, s5]

theorem flush_busy (st : DebState) (tid : Nat) (tl : Int) (ml : String) (T : Int)
    (hp : st.pendingT = [(tid, tl + 600, ml)]) (hw : st.wsOpen = true)
    (hT : tl + 600 ≤ T) :
    (fireDueDebounce T st.pendingT.length st).sent = st.sent ++ [ml] ∧
    (fireDueDebounce T st.pendingT.length st).pendingT = [] := by
  simp only [hp, List.length_cons, List.length_nil, Nat.zero_add]
  unfold fireDueDebounce
  simp [hp, List.find?, hT, fireDueDebounce, fireDebounceTimer, sendImmediateD, hw]

/-- C7: starting from an idle debounce lane on an open connection, a burst
of one or more summary enqueues whose successive wall times are
nondecreasing and less than 600 ms apart transmits, once the 600 ms quiet
window after the last enqueue has elapsed, exactly one message on the
underlying connection, namely the last message enqueued, leaving no armed
timer behind. -/
theorem claim_C7_debounced_lane_collapse :
    ∀ (e : Int × String) (evs : List (Int × String)) (st : DebState) (T : Int),
      st.pendingT = [] → st.debounceTimer = none → st.wsOpen = true →
      List.Chain (fun a b => a.1 ≤ b.1 ∧ b.1 - a.1 < 600) e evs →
      (lastEv e evs).1 + 600 ≤ T →
      (fireDueDebounce T (runDebounceBurst (e :: evs) st).pendingT.length
          (runDebounceBurst (e :: evs) st)).sent = st.sent ++ [(lastEv e evs).2] ∧
      (fireDueDebounce T (runDebounceBurst (e :: evs) st).pendingT.length
          (runDebounceBurst (e :: evs) st)).pendingT = [] := by
  intro e evs st T hp hr hw hch hT
  obtain ⟨a, b⟩ := e
  have hfire0 : fireDueDebounce a st.pendingT.length st = st := by
    rw [hp]
    rfl
  have s1 : (debounceStep st (a, b)).pendingT = [(st.nextT, a + 600, b)] := by
    unfold debounceStep
    rw [hfire0]
    unfold sendDebounced
    rw [hr]
    simp [hp]
  have s2 : (debounceStep st (a, b)).debounceTimer = some st.nextT := by
    unfold debounceStep
    rw [hfire0]
    unfold sendDebounced
    rw [hr]
  have s3 : (debounceStep st (a, b)).sent = st.sent := by
    unfold debounceStep
    rw [hfire0]
    unfold sendDebounced
    rw [hr]
  have s4 : (debounceStep st (a, b)).wsOpen = st.wsOpen := by
    unfold debounceStep
    rw [hfire0]
    unfold sendDebounced
    rw [hr]
  obtain ⟨tid2, h1, h2, h3, h4⟩ :=
    runBurst_busy evs (debounceStep st (a, b)) st.nextT a b s1 s2 hch
  have hrun : runDebounceBurst ((a, b) :: evs) st
      = runDebounceBurst evs (debounceStep st (a, b)) := by
    unfold runDebounceBurst
    rw [List.foldl_cons]
  rw [hrun]
  have hw2 : (runDebounceBurst evs (debounceStep st (a, b))).wsOpen = true := by
    rw [h4, s4, hw]
  obtain ⟨f1, f2⟩ := flush_busy _ tid2 (lastEv (a, b) evs).1 (lastEv (a, b) evs).2
    T h1 hw2 hT
  constructor
  · rw [f1, h3, s3]
  · exact f2

/-- C7 witness: a three-enqueue burst 0, 100, 300 transmits only the last
message once the window has passed. -/
theorem claim_C7_witness :
    (fireDueDebounce 1000
        (runDebounceBurst [(0, "a"), (100, "b"), (300, "c")] initialDebState).pendingT.length
        (runDebounceBurst [(0, "a"), (100, "b"), (300, "c")] initialDebState)).sent
      = ["c"] ∧
    (fireDueDebounce 1000
        (runDebounceBurst [(0, "a"), (100, "b"), (300, "c")] initialDebState).pendingT.length
        (runDebounceBurst [(0, "a"), (100, "b"), (300, "c")] initialDebState)).pendingT
      = [] := by
  have h := claim_C7_debounced_lane_collapse (0, "a") [(100, "b"), (300, "c")]
    initialDebState 1000 rfl rfl rfl
    (List.Chain.cons ⟨by decide, by decide⟩
      (List.Chain.cons ⟨by decide, by decide⟩ List.Chain.nil))
    (by decide)
  simpa using h

/-! Lemmas on the presence state machine of the patient page. -/

theorem sendStatusUpdate_frame (s : String) (st : PresenceState) :
    (sendStatusUpdate s st).pendingP = st.pendingP ∧
    (sendStatusUpdate s st).nextP = st.nextP ∧
    (sendStatusUpdate s st).activityTimer = st.activityTimer ∧
    (sendStatusUpdate s st).idleTimer = st.idleTimer ∧
    (sendStatusUpdate s st).patientId = st.patientId := by
  unfold sendStatusUpdate
  split_ifs <;> exact ⟨rfl, rfl, rfl, rfl, rfl⟩

theorem handleKeyboardInput_emitted_eq (t : Int) (st : PresenceState) :
    (handleKeyboardInput t st).emitted
      = (if st.currentStatus != "updating" then sendStatusUpdate "updating" st
         else st).emitted ∧
    (handleKeyboardInput t st).currentStatus
      = (if st.currentStatus != "updating" then sendStatusUpdate "updating" st
         else st).currentStatus := by
  cases hA : st.activityTimer <;> cases hI : st.idleTimer <;>
    simp [handleKeyboardInput, clearTimerP, sendStatusUpdate, hA, hI] <;>
    split_ifs <;> simp

theorem handleInputFocus_emitted_eq (t : Int) (st : PresenceState) :
    (handleInputFocus t st).emitted
      = (if st.currentStatus == "idle" then sendStatusUpdate "online" st
         else st).emitted ∧
    (handleInputFocus t st).currentStatus
      = (if st.currentStatus == "idle" then sendStatusUpdate "online" st
         else st).currentStatus := by
  cases hI : st.idleTimer <;>
    simp [handleInputFocus, clearTimerP, sendStatusUpdate, hI] <;>
    split_ifs <;> simp

theorem emitInv_sendStatus (s : String) (st : PresenceState)
    (hne : st.currentStatus ≠ s) (h1 : emitInv st)
    (h2 : List.Chain' Ne st.emitted) :
    emitInv (sendStatusUpdate s st) ∧ List.Chain' Ne (sendStatusUpdate s st).emitted := by
  unfold sendStatusUpdate emitInv
  split_ifs with hg
  · exact ⟨h1, h2⟩
  · constructor
    · intro _
      simp [List.getLast?_concat]
    · rw [List.chain'_append]
      refine ⟨h2, List.chain'_singleton _, ?_⟩
      intro x hx y hy
      simp only [List.head?_cons, Option.mem_def, Option.some.injEq] at hy
      subst hy
      cases he : st.emitted with
      | nil => rw [he] at hx; simp at hx
      | cons a l =>
          have hlast := h1 (by rw [he]; simp)
          rw [hlast] at hx
          simp only [Option.mem_def, Option.some.injEq] at hx
          subst hx
          exact hne

theorem emitChain_step (ev : PresenceEvent) (st : PresenceState)
    (h1 : emitInv st) (h2 : List.Chain' Ne st.emitted) :
    emitInv (presenceStep st ev) ∧ List.Chain' Ne (presenceStep st ev).emitted := by
  cases ev with
  | keystroke t =>
      obtain ⟨he, hc⟩ := handleKeyboardInput_emitted_eq t st
      have hinv : emitInv (handleKeyboardInput t st)
          ↔ emitInv (if st.currentStatus != "updating" then sendStatusUpdate "updating" st else st) := by
        unfold emitInv
        rw [he, hc]
      by_cases hcond : st.currentStatus = "updating"
      · have hfalse : (st.currentStatus != "updating") = false := by simp [hcond]
        constructor
        · rw [show presenceStep st (PresenceEvent.keystroke t) = handleKeyboardInput t st from rfl,
            hinv, hfalse]
          simpa using h1
        · rw [show presenceStep st (PresenceEvent.keystroke t) = handleKeyboardInput t st from rfl,
            he, hfalse]
          simpa using h2
      · have htrue : (st.currentStatus != "updating") = true := by simp [hcond]
        obtain ⟨e1, e2⟩ := emitInv_sendStatus "updating" st hcond h1 h2
        constructor
        · rw [show presenceStep st (PresenceEvent.keystroke t) = handleKeyboardInput t st from rfl,
            hinv, htrue]
          simpa using e1
        · rw [show presenceStep st (PresenceEvent.keystroke t) = handleKeyboardInput t st from rfl,
            he, htrue]
          simpa using e2
  | focus t =>
      obtain ⟨he, hc⟩ := handleInputFocus_emitted_eq t st
      have hinv : emitInv (handleInputFocus t st)
          ↔ emitInv (if st.currentStatus == "idle" then sendStatusUpdate "online" st else st) := by
        unfold emitInv
        rw [he, hc]
      by_cases hcond : st.currentStatus = "idle"
      · have htrue : (st.currentStatus == "idle") = true := by simp [hcond]
        have hne : st.currentStatus ≠ "online" := by rw [hcond]; decide
        obtain ⟨e1, e2⟩ := emitInv_sendStatus "online" st hne h1 h2
        constructor
        · rw [show presenceStep st (PresenceEvent.focus t) = handleInputFocus t st from rfl,
            hinv, htrue]
          simpa using e1
        · rw [show presenceStep st (PresenceEvent.focus t) = handleInputFocus t st from rfl,
            he, htrue]
          simpa using e2
      · have hfalse : (st.currentStatus == "idle") = false := by simp [hcond]
        constructor
        · rw [show presenceStep st (PresenceEvent.focus t) = handleInputFocus t st from rfl,
            hinv, hfalse]
          simpa using h1
        · rw [show presenceStep st (PresenceEvent.focus t) = handleInputFocus t st from rfl,
            he, hfalse]
          simpa using h2

theorem emitChain_run (evs : List PresenceEvent) :
    ∀ st : PresenceState, emitInv st → List.Chain' Ne st.emitted →
      emitInv (runPresence evs st) ∧ List.Chain' Ne (runPresence evs st).emitted := by
  induction evs with
  | nil => intro st h1 h2; exact ⟨h1, h2⟩
  | cons e rest ih =>
      intro st h1 h2
      obtain ⟨s1, s2⟩ := emitChain_step e st h1 h2
      have : runPresence (e :: rest) st = runPresence rest (presenceStep st e) := by
        unfold runPresence
        rw [List.foldl_cons]
      rw [this]
      exact ih _ s1 s2

theorem sendStatusUpdate_pendingP (s : String) (st : PresenceState) :
    (sendStatusUpdate s st).pendingP = st.pendingP := by
  unfold sendStatusUpdate
  split_ifs <;> rfl

theorem sendStatusUpdate_nextP (s : String) (st : PresenceState) :
    (sendStatusUpdate s st).nextP = st.nextP := by
  unfold sendStatusUpdate
  split_ifs <;> rfl

theorem sendStatusUpdate_activityTimer (s : String) (st : PresenceState) :
    (sendStatusUpdate s st).activityTimer = st.activityTimer := by
  unfold sendStatusUpdate
  split_ifs <;> rfl

theorem sendStatusUpdate_idleTimer (s : String) (st : PresenceState) :
    (sendStatusUpdate s st).idleTimer = st.idleTimer := by
  unfold sendStatusUpdate
  split_ifs <;> rfl

theorem keystroke_rearms (t : Int) (st : PresenceState) (h : presenceTimerInv st) :
    (handleKeyboardInput t st).pendingP
      = [(st.nextP, t + 2000, "online"), (st.nextP + 1, t + 30000, "idle")] ∧
    (handleKeyboardInput t st).activityTimer = some st.nextP ∧
    (handleKeyboardInput t st).idleTimer = some (st.nextP + 1) ∧
    (handleKeyboardInput t st).nextP = st.nextP + 2 := by
  obtain ⟨hi1, hi2⟩ := h
  cases hA : st.activityTimer with
  | none =>
      cases hI : st.idleTimer with
      | none =>
          have hnil : st.pendingP = [] := by
            cases hp : st.pendingP with
            | nil => rfl
            | cons x l =>
                exfalso
                have hx := (hi1 x (by rw [hp]; simp)).1
                rw [hA, hI] at hx
                rcases hx with hx | hx <;> exact Option.noConfusion hx
          simp [handleKeyboardInput, clearTimerP, hA, hI, hnil,
            apply_ite PresenceState.pendingP, apply_ite PresenceState.nextP,
            apply_ite PresenceState.activityTimer, apply_ite PresenceState.idleTimer,
            sendStatusUpdate_pendingP, sendStatusUpdate_nextP,
            sendStatusUpdate_activityTimer, sendStatusUpdate_idleTimer]
      | some b =>
          have hfil : st.pendingP.filter (fun x => x.1 != b) = [] := by
            rw [List.filter_eq_nil_iff]
            intro x hx
            have h1x := (hi1 x hx).1
            rw [hA, hI] at h1x
            rcases h1x with h1x | h1x
            · exact Option.noConfusion h1x
            · simp [Option.some.inj h1x]
          simp [handleKeyboardInput, clearTimerP, hA, hI, hfil,
            apply_ite PresenceState.pendingP, apply_ite PresenceState.nextP,
            apply_ite PresenceState.activityTimer, apply_ite PresenceState.idleTimer,
            sendStatusUpdate_pendingP, sendStatusUpdate_nextP,
            sendStatusUpdate_activityTimer, sendStatusUpdate_idleTimer]
  | some a =>
      cases hI : st.idleTimer with
      | none =>
          have hfil : st.pendingP.filter (fun x => x.1 != a) = [] := by
            rw [List.filter_eq_nil_iff]
            intro x hx
            have h1x := (hi1 x hx).1
            rw [hA, hI] at h1x
            rcases h1x with h1x | h1x
            · simp [Option.some.inj h1x]
            · exact Option.noConfusion h1x
          simp [handleKeyboardInput, clearTimerP, hA, hI, hfil,
            apply_ite PresenceState.pendingP, apply_ite PresenceState.nextP,
            apply_ite PresenceState.activityTimer, apply_ite PresenceState.idleTimer,
            sendStatusUpdate_pendingP, sendStatusUpdate_nextP,
            sendStatusUpdate_activityTimer, sendStatusUpdate_idleTimer]
      | some b =>
          have hfil : (st.pendingP.filter (fun x => x.1 != a)).filter
              (fun x => x.1 != b) = [] := by
            rw [List.filter_eq_nil_iff]
            intro x hx
            simp only [List.mem_filter, bne_iff_ne, decide_eq_true_eq] at hx
            have h1x := (hi1 x hx.1).1
            rw [hA, hI] at h1x
            rcases h1x with h1x | h1x
            · exact absurd (Option.some.inj h1x).symm hx.2
            · simp [Option.some.inj h1x]
          simp [handleKeyboardInput, clearTimerP, hA, hI, hfil,
            apply_ite PresenceState.pendingP, apply_ite PresenceState.nextP,
            apply_ite PresenceState.activityTimer, apply_ite PresenceState.idleTimer,
            sendStatusUpdate_pendingP, sendStatusUpdate_nextP,
            sendStatusUpdate_activityTimer, sendStatusUpdate_idleTimer]

theorem keystroke_inv (t : Int) (st : PresenceState) (h : presenceTimerInv st) :
    presenceTimerInv (handleKeyboardInput t st) := by
  obtain ⟨hp, ha, hi, hn⟩ := keystroke_rearms t st h
  constructor
  · intro x hx
    rw [hp] at hx
    rw [ha, hi, hn]
    simp only [List.mem_cons, List.mem_singleton, List.not_mem_nil, or_false] at hx
    rcases hx with hx | hx <;> subst hx
    · exact ⟨Or.inl rfl, by omega⟩
    · exact ⟨Or.inr rfl, by omega⟩
  · rw [hp]
    refine List.pairwise_cons.mpr ⟨?_, List.pairwise_singleton _ _⟩
    intro y hy
    simp only [List.mem_singleton] at hy
    subst hy
    simp

theorem focus_inv (t : Int) (st : PresenceState) (h : presenceTimerInv st) :
    presenceTimerInv (handleInputFocus t st) := by
  obtain ⟨hi1, hi2⟩ := h
  cases hI : st.idleTimer with
  | none =>
      have hp : (handleInputFocus t st).pendingP
          = st.pendingP ++ [(st.nextP, t + 30000, "idle")] := by
        simp [handleInputFocus, clearTimerP, hI, apply_ite PresenceState.pendingP,
          sendStatusUpdate_pendingP, apply_ite PresenceState.nextP,
          sendStatusUpdate_nextP]
      have ha : (handleInputFocus t st).activityTimer = st.activityTimer := by
        simp [handleInputFocus, clearTimerP, hI,
          apply_ite PresenceState.activityTimer, sendStatusUpdate_activityTimer]
      have hi : (handleInputFocus t st).idleTimer = some st.nextP := by
        simp [handleInputFocus, clearTimerP, hI, apply_ite PresenceState.nextP,
          sendStatusUpdate_nextP]
      have hn : (handleInputFocus t st).nextP = st.nextP + 1 := by
        simp [handleInputFocus, clearTimerP, hI, apply_ite PresenceState.nextP,
          sendStatusUpdate_nextP]
      constructor
      · intro x hx
        rw [hp] at hx
        rw [ha, hi, hn]
        simp only [List.mem_append, List.mem_singleton] at hx
        rcases hx with hx | hx
        · have h1x := hi1 x hx
          rcases h1x.1 with h2x | h2x
          · exact ⟨Or.inl h2x, by have := h1x.2; omega⟩
          · rw [hI] at h2x; exact Option.noConfusion h2x
        · subst hx
          exact ⟨Or.inr rfl, by omega⟩
      · rw [hp]
        rw [List.pairwise_append]
        refine ⟨hi2, List.pairwise_singleton _ _, ?_⟩
        intro a2 ha2 b2 hb2
        simp only [List.mem_singleton] at hb2
        subst hb2
        have := (hi1 a2 ha2).2
        simp
        omega
  | some b =>
      have hp : (handleInputFocus t st).pendingP
          = st.pendingP.filter (fun x => x.1 != b)
            ++ [(st.nextP, t + 30000, "idle")] := by
        simp [handleInputFocus, clearTimerP, hI, apply_ite PresenceState.pendingP,
          sendStatusUpdate_pendingP, apply_ite PresenceState.nextP,
          sendStatusUpdate_nextP]
      have ha : (handleInputFocus t st).activityTimer = st.activityTimer := by
        simp [handleInputFocus, clearTimerP, hI,
          apply_ite PresenceState.activityTimer, sendStatusUpdate_activityTimer]
      have hi : (handleInputFocus t st).idleTimer = some st.nextP := by
        simp [handleInputFocus, clearTimerP, hI, apply_ite PresenceState.nextP,
          sendStatusUpdate_nextP]
      have hn : (handleInputFocus t st).nextP = st.nextP + 1 := by
        simp [handleInputFocus, clearTimerP, hI, apply_ite PresenceState.nextP,
          sendStatusUpdate_nextP]
      constructor
      · intro x hx
        rw [hp] at hx
        rw [ha, hi, hn]
        simp only [List.mem_append, List.mem_singleton, List.mem_filter,
          bne_iff_ne, decide_eq_true_eq] at hx
        rcases hx with ⟨hx, hxb⟩ | hx
        · have h1x := hi1 x hx
          rcases h1x.1 with h2x | h2x
          · exact ⟨Or.inl h2x, by have := h1x.2; omega⟩
          · rw [hI] at h2x
            exact absurd (Option.some.inj h2x).symm hxb
        · subst hx
          exact ⟨Or.inr rfl, by omega⟩
      · rw [hp]
        rw [List.pairwise_append]
        refine ⟨hi2.sublist (List.filter_sublist _), List.pairwise_singleton _ _, ?_⟩
        intro a2 ha2 b2 hb2
        simp only [List.mem_singleton] at hb2
        simp only [List.mem_filter] at ha2
        subst hb2
        have := (hi1 a2 ha2.1).2
        simp
        omega

/-- C8: along any sequence of keystroke and focus events the presence
machine never emits two consecutive identical statuses: a keystroke emits
updating only when the current status is not already updating (and an
emission makes updating current), each keystroke cancels the pending
online and idle timeouts and re-arms exactly the 2 s return-to-online and
30 s go-idle timers, and the timer bookkeeping invariant is preserved by
keystrokes and focus events, so the emission trace stays free of adjacent
duplicates. -/
theorem claim_C8_presence_no_duplicate_emissions :
    (∀ (t : Int) (st : PresenceState), st.currentStatus = "updating" →
        (handleKeyboardInput t st).emitted = st.emitted) ∧
    (∀ (t : Int) (st : PresenceState),
        st.currentStatus ≠ "updating" → st.patientId ≠ "" →
        (handleKeyboardInput t st).emitted = st.emitted ++ ["updating"] ∧
        (handleKeyboardInput t st).currentStatus = "updating") ∧
    (∀ (t : Int) (st : PresenceState), presenceTimerInv st →
        (handleKeyboardInput t st).pendingP
          = [(st.nextP, t + 2000, "online"), (st.nextP + 1, t + 30000, "idle")] ∧
        (handleKeyboardInput t st).activityTimer = some st.nextP ∧
        (handleKeyboardInput t st).idleTimer = some (st.nextP + 1)) ∧
    (∀ (t : Int) (st : PresenceState), presenceTimerInv st →
        presenceTimerInv (handleKeyboardInput t st) ∧
        presenceTimerInv (handleInputFocus t st)) ∧
    (∀ (evs : List PresenceEvent) (st : PresenceState),
        emitInv st → List.Chain' Ne st.emitted →
        List.Chain' Ne (runPresence evs st).emitted) := by
  refine ⟨?_, ?_, ?_, ?_, ?_⟩
  · intro t st h
    have hfalse : (st.currentStatus != "updating") = false := by simp [h]
    rw [(handleKeyboardInput_emitted_eq t st).1, hfalse]
    simp
  · intro t st h hpid
    have htrue : (st.currentStatus != "updating") = true := by simp [h]
    have hg : (st.patientId == "") = false := by simp [hpid]
    constructor
    · rw [(handleKeyboardInput_emitted_eq t st).1, htrue]
      simp only [if_true]
      unfold sendStatusUpdate
      rw [hg]
      simp
    · rw [(handleKeyboardInput_emitted_eq t st).2, htrue]
      simp only [if_true]
      unfold sendStatusUpdate
      rw [hg]
      simp
  · intro t st h
    obtain ⟨hp, ha, hi, _⟩ := keystroke_rearms t st h
    exact ⟨hp, ha, hi⟩
  · intro t st h
    exact ⟨keystroke_inv t st h, focus_inv t st h⟩
  · intro evs st h1 h2
    exact (emitChain_run evs st h1 h2).2

/-- C8 witness: a first keystroke from online emits exactly one updating. -/
theorem claim_C8_witness :
    (handleKeyboardInput 5
        { patientId := "p1", currentStatus := "online", activityTimer := none,
          idleTimer := none, pendingP := [], emitted := [],
          nextP := 1 }).emitted = ["updating"] ∧
    (handleKeyboardInput 5
        { patientId := "p1", currentStatus := "online", activityTimer := none,
          idleTimer := none, pendingP := [], emitted := [],
          nextP := 1 }).currentStatus = "updating" := by
  have h := claim_C8_presence_no_duplicate_emissions.2.1 5
    { patientId := "p1", currentStatus := "online", activityTimer := none,
      idleTimer := none, pendingP := [], emitted := [], nextP := 1 }
    (by decide) (by decide)
  simpa using h
